import Mathlib

/-!
Verification of the problem-formulation layer of a local-search repository
(file problem.py): an 8-puzzle formulation and an 8-queens formulation.

Python lists of ints are modelled as List Int, 3x3 grids as List (List Int),
raised exceptions as Except values, and the random stream consumed by
random shuffling as an explicit list of candidate permutations.  All
definitions are direct transcriptions of the Python source; operations are
pure, so the "does not mutate its input" parts of the specification hold by
construction in this model and are not restated as theorems.
-/

/-- Cell access estado[r][c] with Python-style indexing modelled through getD
(out-of-range reads return a default; all theorems restrict indices to the
grid, where getD agrees with real indexing). -/
def getCell (g : List (List Int)) (r c : Nat) : Int :=
  (g.getD r []).getD c 0

/-- Cell update new_state[r][c] = v. -/
def setCell (g : List (List Int)) (r c : Nat) (v : Int) : List (List Int) :=
  g.set r ((g.getD r []).set c v)

/-- The nine tile values 0..8 as integers, row-major. -/
def range9 : List Int := (List.range 9).map (fun n => (n : Int))

/-- Structural invariant of a puzzle state: a 3x3 grid whose flattening is a
permutation of 0..8. -/
def validGrid (g : List (List Int)) : Prop :=
  g.length = 3 ∧ (∀ row ∈ g, row.length = 3) ∧ g.flatten.Perm range9

instance (g : List (List Int)) : Decidable (validGrid g) := by
  unfold validGrid; infer_instance

namespace EightPuzzleProblem

/-- GOAL grid of the Python class. -/
def GOAL : List (List Int) := [[0, 1, 2], [3, 4, 5], [6, 7, 8]]

/-- The _pos_objetivo dict built in __init__: position of each value in GOAL
(first matching cell; keys are unique so this agrees with the dict). -/
def pos_objetivo (v : Int) : Nat × Nat :=
  (((List.range 3).flatMap
      (fun r => (List.range 3).map (fun c => (getCell GOAL r c, (r, c))))).lookup v).getD (0, 0)

/-- Method _buscar_cero: first cell (row-major scan) holding 0; none models the
raised ValueError for a state with no zero. -/
def buscar_cero (estado : List (List Int)) : Option (Nat × Nat) :=
  (List.range 3).findSome? (fun r =>
    (List.range 3).findSome? (fun c =>
      if getCell estado r c = 0 then some (r, c) else none))

/-- Method acciones on the puzzle: the legal directions in the fixed order
UP, DOWN, LEFT, RIGHT; none models the ValueError raised when the state has
no zero cell. -/
def acciones (estado : List (List Int)) : Option (List String) :=
  match buscar_cero estado with
  | none => none
  | some (zr, zc) =>
    some ((if zr > 0 then ["UP"] else []) ++ (if zr < 2 then ["DOWN"] else []) ++
      (if zc > 0 then ["LEFT"] else []) ++ (if zc < 2 then ["RIGHT"] else []))

/-- Errors raised by the puzzle methods: ValueError for a zero-less state,
ValueError for an unrecognized action, IndexError for a move out of bounds. -/
inductive PuzzleError where
  | invalidState : PuzzleError
  | invalidAction : PuzzleError
  | outOfBounds : PuzzleError
deriving DecidableEq

/-- Method resultado: move the blank in the given direction.  The target cell
is computed as ints (it may be -1 or 3 before the bounds check); the swap is
the sequential double assignment of the Python source. -/
def resultado (estado : List (List Int)) (accion : String) :
    Except PuzzleError (List (List Int)) :=
  match buscar_cero estado with
  | none => Except.error PuzzleError.invalidState
  | some (zr, zc) =>
    match (if accion = "UP" then some ((zr : Int) - 1, (zc : Int))
           else if accion = "DOWN" then some ((zr : Int) + 1, (zc : Int))
           else if accion = "LEFT" then some ((zr : Int), (zc : Int) - 1)
           else if accion = "RIGHT" then some ((zr : Int), (zc : Int) + 1)
           else none) with
    | none => Except.error PuzzleError.invalidAction
    | some (nr, nc) =>
      if 0 ≤ nr ∧ nr < 3 ∧ 0 ≤ nc ∧ nc < 3 then
        Except.ok (setCell (setCell estado zr zc (getCell estado nr.toNat nc.toNat))
          nr.toNat nc.toNat (getCell estado zr zc))
      else Except.error PuzzleError.outOfBounds

/-- Inner pair loop of __contar_inversiones on the already-filtered list:
for each i, count the later j with perm[i] > perm[j]. -/
def cuenta_pares : List Int → Nat
  | [] => 0
  | x :: xs => xs.countP (fun y => decide (y < x)) + cuenta_pares xs

/-- Method __contar_inversiones: drop the 0, count out-of-order pairs. -/
def contar_inversiones (perm : List Int) : Nat :=
  cuenta_pares (perm.filter (fun x => decide (x ≠ 0)))

/-- Method __es_resoluble. -/
def es_resoluble (perm : List Int) : Bool :=
  contar_inversiones perm % 2 == 0

/-- Method estado_aleatorio.  random.shuffle always yields a permutation of the
nine values; the stream of shuffles is modelled as an explicit candidate list
and the while-loop keeps the first solvable candidate, laid out row-major.
An exhausted candidate list (none) models a never-terminating loop. -/
def estado_aleatorio (candidates : List (List Int)) : Option (List (List Int)) :=
  match candidates with
  | [] => none
  | p :: rest =>
    if es_resoluble p then some [p.take 3, (p.drop 3).take 3, (p.drop 6).take 3]
    else estado_aleatorio rest

/-- Method valor_objetivo: accumulate, over the row-major cell scan, the
Manhattan distance of every non-zero value to its goal position. -/
def valor_objetivo (estado : List (List Int)) : Int :=
  (List.range 3).foldl (fun total r =>
    (List.range 3).foldl (fun t c =>
      if getCell estado r c = 0 then t
      else t + |(r : Int) - ((pos_objetivo (getCell estado r c)).1 : Int)| +
        |(c : Int) - ((pos_objetivo (getCell estado r c)).2 : Int)|) total) 0

end EightPuzzleProblem

namespace EightQueensProblem

/-- Board size attribute N. -/
def N : Nat := 8

/-- Errors raised by the queens methods: the two ValueError range checks of
resultado and the ValueError length check of __init__. -/
inductive QueensError where
  | rowOutOfRange : QueensError
  | colOutOfRange : QueensError
  | lengthError : QueensError
deriving DecidableEq

/-- Constructor branch for an explicitly supplied initial state: reject any
list whose length is not 8, otherwise store a copy (copying is identity on
immutable values). -/
def init (initial : List Int) : Except QueensError (List Int) :=
  if initial.length ≠ N then Except.error QueensError.lengthError
  else Except.ok initial

/-- Method acciones: for every column 1..8 and row 1..8 whose row differs from
the queen currently in that column, emit (row, col), column-major as in the
nested Python loops. -/
def acciones (estado : List Int) : List (Int × Int) :=
  (List.range' 1 N).flatMap (fun col =>
    ((List.range' 1 N).filter
        (fun row : Nat => decide (estado.getD (col - 1) 0 ≠ (row : Int)))).map
      (fun row : Nat => ((row : Int), (col : Int))))

/-- Method resultado: validate the two coordinates, then rewrite column col. -/
def resultado (estado : List Int) (accion : Int × Int) :
    Except QueensError (List Int) :=
  if ¬(1 ≤ accion.1 ∧ accion.1 ≤ (N : Int)) then Except.error QueensError.rowOutOfRange
  else if ¬(1 ≤ accion.2 ∧ accion.2 ≤ (N : Int)) then Except.error QueensError.colOutOfRange
  else Except.ok (estado.set (accion.2 - 1).toNat accion.1)

/-- Method valor_objetivo: the nested conflict-counting loops of the source. -/
def valor_objetivo (estado : List Int) : Nat :=
  (List.range' 1 N).foldl (fun conflictos i =>
    (List.range' (i + 1) (N - i)).foldl (fun conf j =>
      if estado.getD (i - 1) 0 = estado.getD (j - 1) 0 then conf + 1
      else if (estado.getD (i - 1) 0 - estado.getD (j - 1) 0).natAbs =
          ((i : Int) - (j : Int)).natAbs then conf + 1
      else conf) conflictos) 0

end EightQueensProblem

/-- The unordered column pairs (i, j) with i < j, both in 1..8, in the order
the nested loops of the queens objective visit them. -/
def column_pairs : List (Nat × Nat) :=
  (List.range' 1 8).flatMap (fun i => (List.range' (i + 1) (8 - i)).map (fun j => (i, j)))

/-- Two queens (given by their 1-based columns) attack each other: same row or
same diagonal. -/
def attacks (estado : List Int) (p : Nat × Nat) : Prop :=
  estado.getD (p.1 - 1) 0 = estado.getD (p.2 - 1) 0 ∨
  (estado.getD (p.1 - 1) 0 - estado.getD (p.2 - 1) 0).natAbs =
    ((p.1 : Int) - (p.2 : Int)).natAbs

instance (estado : List Int) (p : Nat × Nat) : Decidable (attacks estado p) := by
  unfold attacks; infer_instance

/-! Generic list lemmas about set, getD and counting, used to reason about the
cell updates of both formulations. -/

theorem getD_mem {α : Type} (l : List α) (i : Nat) (d : α) (h : i < l.length) :
    l.getD i d ∈ l := by
  rw [List.getD_eq_getElem l d h]
  exact List.getElem_mem h

theorem getD_set_self {α : Type} (l : List α) (i : Nat) (v d : α) (h : i < l.length) :
    (l.set i v).getD i d = v := by
  induction l generalizing i with
  | nil => simp at h
  | cons hd tl ih =>
    cases i with
    | zero => rfl
    | succ n => exact ih n (by simpa using h)

theorem getD_set_ne {α : Type} (l : List α) (i j : Nat) (v d : α) (h : i ≠ j) :
    (l.set i v).getD j d = l.getD j d := by
  induction l generalizing i j with
  | nil => simp
  | cons hd tl ih =>
    cases i with
    | zero =>
      cases j with
      | zero => exact absurd rfl h
      | succ m => rfl
    | succ n =>
      cases j with
      | zero => rfl
      | succ m => exact ih n m (by omega)

theorem set_getD_self {α : Type} (l : List α) (i : Nat) (d : α) (h : i < l.length) :
    l.set i (l.getD i d) = l := by
  induction l generalizing i with
  | nil => simp at h
  | cons hd tl ih =>
    cases i with
    | zero => rfl
    | succ n => simpa using ih n (by simpa using h)

theorem count_set {α : Type} [DecidableEq α] (l : List α) (i : Nat) (a d v : α)
    (h : i < l.length) :
    (l.set i a).count v + (if l.getD i d = v then 1 else 0) =
      l.count v + (if a = v then 1 else 0) := by
  induction l generalizing i with
  | nil => simp at h
  | cons hd tl ih =>
    cases i with
    | zero =>
      simp only [List.set_cons_zero, List.getD_cons_zero, List.count_cons]
      by_cases h1 : hd = v <;> by_cases h2 : a = v <;> simp [h1, h2]
    | succ n =>
      simp only [List.set_cons_succ, List.getD_cons_succ, List.count_cons]
      have hih := ih n (by simpa using h)
      simp only [List.getD, List.get?_eq_getElem?] at hih ⊢
      by_cases h1 : hd = v <;> simp [h1] <;> omega

theorem swap_perm {α : Type} [DecidableEq α] (l : List α) (i j : Nat) (d : α)
    (hi : i < l.length) (hj : j < l.length) :
    ((l.set i (l.getD j d)).set j (l.getD i d)).Perm l := by
  by_cases hij : i = j
  · subst hij
    rw [List.set_set, set_getD_self l i d hi]
  · rw [List.perm_iff_count]
    intro v
    have hlen : (l.set i (l.getD j d)).length = l.length := by simp
    have h1 := count_set (l.set i (l.getD j d)) j (l.getD i d) d v (by omega)
    have h2 := count_set l i (l.getD j d) d v hi
    rw [getD_set_ne l i j (l.getD j d) d hij] at h1
    by_cases e1 : l.getD i d = v <;> by_cases e2 : l.getD j d = v <;>
      simp [e1, e2] at h1 h2 ⊢ <;> omega

/-! Structural lemmas about 3x3 grids. -/

theorem list_eq_three {α : Type} (l : List α) (h : l.length = 3) :
    ∃ a b c, l = [a, b, c] := by
  rcases l with _ | ⟨a, l⟩
  · simp at h
  rcases l with _ | ⟨b, l⟩
  · simp at h
  rcases l with _ | ⟨c, l⟩
  · simp at h
  rcases l with _ | ⟨d, l⟩
  · exact ⟨a, b, c, rfl⟩
  · simp at h

theorem grid_destruct (g : List (List Int)) (h1 : g.length = 3)
    (h2 : ∀ row ∈ g, row.length = 3) :
    ∃ a b c d e f p q r, g = [[a, b, c], [d, e, f], [p, q, r]] := by
  obtain ⟨r0, r1, r2, rfl⟩ := list_eq_three g h1
  obtain ⟨a, b, c, e0⟩ := list_eq_three r0 (h2 r0 (by simp))
  obtain ⟨d, e, f, e1⟩ := list_eq_three r1 (h2 r1 (by simp))
  obtain ⟨p, q, r, e2⟩ := list_eq_three r2 (h2 r2 (by simp))
  exact ⟨a, b, c, d, e, f, p, q, r, by rw [e0, e1, e2]⟩

theorem getCell_setCell_self (g : List (List Int)) (r c : Nat) (v : Int)
    (h1 : g.length = 3) (h2 : ∀ row ∈ g, row.length = 3) (hr : r < 3) (hc : c < 3) :
    getCell (setCell g r c v) r c = v := by
  unfold getCell setCell
  rw [getD_set_self g r ((g.getD r []).set c v) [] (by omega)]
  refine getD_set_self (g.getD r []) c v 0 ?_
  rw [h2 (g.getD r []) (getD_mem g r [] (by omega))]
  omega

theorem getCell_setCell_ne (g : List (List Int)) (r c r' c' : Nat) (v : Int)
    (h1 : g.length = 3) (hr : r < 3)
    (hne : ¬(r' = r ∧ c' = c)) :
    getCell (setCell g r c v) r' c' = getCell g r' c' := by
  unfold getCell setCell
  by_cases hrr : r' = r
  · subst hrr
    have hcc : c' ≠ c := fun hc => hne ⟨rfl, hc⟩
    rw [getD_set_self g r' ((g.getD r' []).set c v) [] (by omega)]
    exact getD_set_ne (g.getD r' []) c c' v 0 (fun hh => hcc hh.symm)
  · rw [getD_set_ne g r r' ((g.getD r []).set c v) [] (fun hh => hrr hh.symm)]

theorem shape_setCell (g : List (List Int)) (r c : Nat) (v : Int)
    (h1 : g.length = 3) (h2 : ∀ row ∈ g, row.length = 3) (hr : r < 3) :
    (setCell g r c v).length = 3 ∧ ∀ row ∈ setCell g r c v, row.length = 3 := by
  constructor
  · simp [setCell, h1]
  · intro row hrow
    rcases List.mem_or_eq_of_mem_set hrow with hmem | heq
    · exact h2 row hmem
    · rw [heq, List.length_set]
      exact h2 (g.getD r []) (getD_mem g r [] (by omega))

theorem flatten_setCell (g : List (List Int)) (r c : Nat) (v : Int)
    (h1 : g.length = 3) (h2 : ∀ row ∈ g, row.length = 3) (hr : r < 3) (hc : c < 3) :
    (setCell g r c v).flatten = g.flatten.set (3 * r + c) v := by
  obtain ⟨a, b, c', d, e, f, p, q, s, rfl⟩ := grid_destruct g h1 h2
  interval_cases r <;> interval_cases c <;> rfl

theorem getCell_flatten (g : List (List Int)) (r c : Nat)
    (h1 : g.length = 3) (h2 : ∀ row ∈ g, row.length = 3) (hr : r < 3) (hc : c < 3) :
    getCell g r c = g.flatten.getD (3 * r + c) 0 := by
  obtain ⟨a, b, c', d, e, f, p, q, s, rfl⟩ := grid_destruct g h1 h2
  interval_cases r <;> interval_cases c <;> rfl

theorem flatten_length_nine (g : List (List Int)) (hv : validGrid g) :
    g.flatten.length = 9 := by
  rw [hv.2.2.length_eq]
  rfl

theorem nodup_getD_inj {α : Type} (l : List α) (d : α) (hnd : l.Nodup) (i j : Nat)
    (hi : i < l.length) (hj : j < l.length) (h : l.getD i d = l.getD j d) : i = j := by
  rw [List.getD_eq_getElem l d hi, List.getD_eq_getElem l d hj] at h
  have h2 : l.get ⟨i, hi⟩ = l.get ⟨j, hj⟩ := by simpa using h
  have h3 : (⟨i, hi⟩ : Fin l.length) = ⟨j, hj⟩ := hnd.get_inj_iff.mp h2
  exact congrArg Fin.val h3

theorem validGrid_nodup (g : List (List Int)) (hv : validGrid g) : g.flatten.Nodup :=
  hv.2.2.nodup_iff.mpr (by decide)

/-! Lemmas about the blank search and the puzzle action list. -/

namespace EightPuzzleProblem

theorem buscar_cero_some (g : List (List Int)) (zr zc : Nat)
    (h : buscar_cero g = some (zr, zc)) :
    getCell g zr zc = 0 ∧ zr < 3 ∧ zc < 3 := by
  unfold buscar_cero at h
  obtain ⟨r, hr, hinner⟩ := List.exists_of_findSome?_eq_some h
  obtain ⟨c, hc, hcell⟩ := List.exists_of_findSome?_eq_some hinner
  rw [List.mem_range] at hr hc
  by_cases h0 : getCell g r c = 0
  · rw [if_pos h0] at hcell
    obtain ⟨rfl, rfl⟩ : r = zr ∧ c = zc := by
      constructor <;> [exact congrArg Prod.fst (Option.some.inj hcell);
        exact congrArg Prod.snd (Option.some.inj hcell)]
    exact ⟨h0, hr, hc⟩
  · rw [if_neg h0] at hcell
    exact absurd hcell (by simp)

theorem exists_buscar_cero (g : List (List Int)) (hv : validGrid g) :
    ∃ z, buscar_cero g = some z := by
  cases hb : buscar_cero g with
  | some z => exact ⟨z, rfl⟩
  | none =>
    exfalso
    unfold buscar_cero at hb
    rw [List.findSome?_eq_none_iff] at hb
    have hall : ∀ r c : Nat, r < 3 → c < 3 → getCell g r c ≠ 0 := by
      intro r c hr hc
      have := hb r (List.mem_range.mpr hr)
      rw [List.findSome?_eq_none_iff] at this
      have h2 := this c (List.mem_range.mpr hc)
      by_cases h0 : getCell g r c = 0
      · rw [if_pos h0] at h2; exact absurd h2 (by simp)
      · exact h0
    have hmem : (0 : Int) ∈ g.flatten := hv.2.2.mem_iff.mpr (by decide)
    obtain ⟨a, b, c, d, e, f, p, q, r, rfl⟩ := grid_destruct g hv.1 hv.2.1
    rw [show [[a, b, c], [d, e, f], [p, q, r]].flatten = [a, b, c, d, e, f, p, q, r]
      from rfl] at hmem
    simp only [List.mem_cons, List.not_mem_nil, or_false] at hmem
    rcases hmem with h | h | h | h | h | h | h | h | h
    · exact hall 0 0 (by omega) (by omega) h.symm
    · exact hall 0 1 (by omega) (by omega) h.symm
    · exact hall 0 2 (by omega) (by omega) h.symm
    · exact hall 1 0 (by omega) (by omega) h.symm
    · exact hall 1 1 (by omega) (by omega) h.symm
    · exact hall 1 2 (by omega) (by omega) h.symm
    · exact hall 2 0 (by omega) (by omega) h.symm
    · exact hall 2 1 (by omega) (by omega) h.symm
    · exact hall 2 2 (by omega) (by omega) h.symm

theorem unique_zero (g : List (List Int)) (hv : validGrid g) (r c r' c' : Nat)
    (hr : r < 3) (hc : c < 3) (hr' : r' < 3) (hc' : c' < 3)
    (h0 : getCell g r c = 0) (h0' : getCell g r' c' = 0) : r = r' ∧ c = c' := by
  rw [getCell_flatten g r c hv.1 hv.2.1 hr hc] at h0
  rw [getCell_flatten g r' c' hv.1 hv.2.1 hr' hc'] at h0'
  have hlen := flatten_length_nine g hv
  have := nodup_getD_inj g.flatten 0 (validGrid_nodup g hv) (3 * r + c) (3 * r' + c')
    (by omega) (by omega) (by rw [h0, h0'])
  omega

end EightPuzzleProblem

namespace EightPuzzleProblem

theorem acciones_eq (g : List (List Int)) (zr zc : Nat)
    (hz : buscar_cero g = some (zr, zc)) :
    acciones g = some ((if zr > 0 then ["UP"] else []) ++ (if zr < 2 then ["DOWN"] else []) ++
      (if zc > 0 then ["LEFT"] else []) ++ (if zc < 2 then ["RIGHT"] else [])) := by
  unfold acciones
  rw [hz]

theorem mem_ite_singleton {α : Type} (a x : α) (c : Prop) [Decidable c] :
    (a ∈ if c then [x] else []) ↔ c ∧ a = x := by
  split_ifs with h <;> simp [h]

theorem mem_acciones (g : List (List Int)) (zr zc : Nat)
    (hz : buscar_cero g = some (zr, zc)) (acts : List String)
    (hacts : acciones g = some acts) (a : String) :
    a ∈ acts ↔ (a = "UP" ∧ 0 < zr) ∨ (a = "DOWN" ∧ zr < 2) ∨
      (a = "LEFT" ∧ 0 < zc) ∨ (a = "RIGHT" ∧ zc < 2) := by
  rw [acciones_eq g zr zc hz] at hacts
  obtain rfl := Option.some.inj hacts
  simp only [List.mem_append, mem_ite_singleton]
  tauto

theorem acciones_sublist (g : List (List Int)) (zr zc : Nat)
    (hz : buscar_cero g = some (zr, zc)) (acts : List String)
    (hacts : acciones g = some acts) :
    acts.Sublist ["UP", "DOWN", "LEFT", "RIGHT"] := by
  rw [acciones_eq g zr zc hz] at hacts
  obtain rfl := Option.some.inj hacts
  split_ifs <;> decide

end EightPuzzleProblem

namespace EightPuzzleProblem

theorem swap_conclusion (s t : List (List Int)) (hv : validGrid s) (zr zc nr nc : Nat)
    (hzr : zr < 3) (hzc : zc < 3) (hnr : nr < 3) (hnc : nc < 3)
    (hne : ¬(nr = zr ∧ nc = zc)) (h0 : getCell s zr zc = 0)
    (ht : t = setCell (setCell s zr zc (getCell s nr nc)) nr nc (getCell s zr zc)) :
    getCell s nr nc ≠ 0 ∧ getCell t zr zc = getCell s nr nc ∧ getCell t nr nc = 0 ∧
    (∀ r c, r < 3 → c < 3 → ¬(r = zr ∧ c = zc) → ¬(r = nr ∧ c = nc) →
      getCell t r c = getCell s r c) ∧ validGrid t := by
  subst ht
  have h1 := hv.1
  have h2 := hv.2.1
  have hshape1 := shape_setCell s zr zc (getCell s nr nc) h1 h2 hzr
  refine ⟨?_, ?_, ?_, ?_, ?_⟩
  · intro hzero
    obtain ⟨he1, he2⟩ := unique_zero s hv nr nc zr zc hnr hnc hzr hzc hzero h0
    exact hne ⟨he1, he2⟩
  · rw [getCell_setCell_ne _ nr nc zr zc _ hshape1.1 hnr
      (fun hh => hne ⟨hh.1.symm, hh.2.symm⟩)]
    exact getCell_setCell_self s zr zc _ h1 h2 hzr hzc
  · rw [getCell_setCell_self _ nr nc _ hshape1.1 hshape1.2 hnr hnc]
    exact h0
  · intro r c hr hc hne1 hne2
    rw [getCell_setCell_ne _ nr nc r c _ hshape1.1 hnr hne2]
    exact getCell_setCell_ne s zr zc r c _ h1 hzr hne1
  · have hshape2 := shape_setCell _ nr nc (getCell s zr zc) hshape1.1 hshape1.2 hnr
    refine ⟨hshape2.1, hshape2.2, ?_⟩
    have hlen := flatten_length_nine s hv
    have hfs1 := flatten_setCell s zr zc (getCell s nr nc) h1 h2 hzr hzc
    have hfs2 := flatten_setCell (setCell s zr zc (getCell s nr nc)) nr nc
      (getCell s zr zc) hshape1.1 hshape1.2 hnr hnc
    rw [hfs2, hfs1]
    rw [getCell_flatten s nr nc h1 h2 hnr hnc, getCell_flatten s zr zc h1 h2 hzr hzc]
    exact (swap_perm s.flatten (3 * zr + zc) (3 * nr + nc) 0
      (by omega) (by omega)).trans hv.2.2

theorem resultado_ok (g : List (List Int)) (a : String) (zr zc : Nat) (nrI ncI : Int)
    (hz : buscar_cero g = some (zr, zc))
    (hdir : (if a = "UP" then some ((zr : Int) - 1, (zc : Int))
             else if a = "DOWN" then some ((zr : Int) + 1, (zc : Int))
             else if a = "LEFT" then some ((zr : Int), (zc : Int) - 1)
             else if a = "RIGHT" then some ((zr : Int), (zc : Int) + 1)
             else none) = some (nrI, ncI))
    (hb : 0 ≤ nrI ∧ nrI < 3 ∧ 0 ≤ ncI ∧ ncI < 3) :
    resultado g a = Except.ok (setCell (setCell g zr zc (getCell g nrI.toNat ncI.toNat))
      nrI.toNat ncI.toNat (getCell g zr zc)) := by
  unfold resultado
  rw [hz]
  dsimp only
  rw [hdir]
  dsimp only
  rw [if_pos hb]

end EightPuzzleProblem

/-! Claim theorems. -/

open EightPuzzleProblem in
/-- C2: for every valid puzzle state s and every action a listed by acciones s,
resultado s a succeeds and returns a state t that swaps the blank with the
adjacent cell in the direction of a, leaves every other cell unchanged, and is
itself a valid state.  (resultado is a pure function of s in this model, so s
is unchanged by construction.) -/
theorem puzzle_resultado_swaps_blank (s : List (List Int)) (a : String)
    (acts : List String) (hv : validGrid s)
    (hacts : acciones s = some acts) (ha : a ∈ acts) :
    ∃ t zr zc nr nc,
      resultado s a = Except.ok t ∧
      buscar_cero s = some (zr, zc) ∧ getCell s zr zc = 0 ∧
      nr < 3 ∧ nc < 3 ∧ ¬(nr = zr ∧ nc = zc) ∧
      ((a = "UP" ∧ nr + 1 = zr ∧ nc = zc) ∨ (a = "DOWN" ∧ nr = zr + 1 ∧ nc = zc) ∨
       (a = "LEFT" ∧ nr = zr ∧ nc + 1 = zc) ∨ (a = "RIGHT" ∧ nr = zr ∧ nc = zc + 1)) ∧
      getCell s nr nc ≠ 0 ∧
      getCell t zr zc = getCell s nr nc ∧ getCell t nr nc = 0 ∧
      (∀ r c, r < 3 → c < 3 → ¬(r = zr ∧ c = zc) → ¬(r = nr ∧ c = nc) →
        getCell t r c = getCell s r c) ∧
      validGrid t := by
  cases hb : buscar_cero s with
  | none => simp [acciones, hb] at hacts
  | some z =>
    obtain ⟨zr, zc⟩ := z
    obtain ⟨h0, hzr, hzc⟩ := buscar_cero_some s zr zc hb
    rw [mem_acciones s zr zc hb acts hacts a] at ha
    rcases ha with ⟨rfl, hleg⟩ | ⟨rfl, hleg⟩ | ⟨rfl, hleg⟩ | ⟨rfl, hleg⟩
    · have hres := resultado_ok s "UP" zr zc ((zr : Int) - 1) ((zc : Int)) hb
        (by simp) (by omega)
      rw [show ((zr : Int) - 1).toNat = zr - 1 by omega,
        show ((zc : Int)).toNat = zc by omega] at hres
      have hsw := swap_conclusion s _ hv zr zc (zr - 1) zc hzr hzc (by omega) hzc
        (by omega) h0 rfl
      exact ⟨_, zr, zc, zr - 1, zc, hres, rfl, h0, by omega, hzc, by omega,
        Or.inl ⟨rfl, by omega, rfl⟩, hsw.1, hsw.2.1, hsw.2.2.1, hsw.2.2.2.1,
        hsw.2.2.2.2⟩
    · have hres := resultado_ok s "DOWN" zr zc ((zr : Int) + 1) ((zc : Int)) hb
        (by simp) (by omega)
      rw [show ((zr : Int) + 1).toNat = zr + 1 by omega,
        show ((zc : Int)).toNat = zc by omega] at hres
      have hsw := swap_conclusion s _ hv zr zc (zr + 1) zc (by omega) hzc (by omega) hzc
        (by omega) h0 rfl
      exact ⟨_, zr, zc, zr + 1, zc, hres, rfl, h0, by omega, hzc, by omega,
        Or.inr (Or.inl ⟨rfl, rfl, rfl⟩), hsw.1, hsw.2.1, hsw.2.2.1, hsw.2.2.2.1,
        hsw.2.2.2.2⟩
    · have hres := resultado_ok s "LEFT" zr zc ((zr : Int)) ((zc : Int) - 1) hb
        (by simp) (by omega)
      rw [show ((zr : Int)).toNat = zr by omega,
        show ((zc : Int) - 1).toNat = zc - 1 by omega] at hres
      have hsw := swap_conclusion s _ hv zr zc zr (zc - 1) hzr hzc hzr (by omega)
        (by omega) h0 rfl
      exact ⟨_, zr, zc, zr, zc - 1, hres, rfl, h0, hzr, by omega, by omega,
        Or.inr (Or.inr (Or.inl ⟨rfl, rfl, by omega⟩)), hsw.1, hsw.2.1, hsw.2.2.1,
        hsw.2.2.2.1, hsw.2.2.2.2⟩
    · have hres := resultado_ok s "RIGHT" zr zc ((zr : Int)) ((zc : Int) + 1) hb
        (by simp) (by omega)
      rw [show ((zr : Int)).toNat = zr by omega,
        show ((zc : Int) + 1).toNat = zc + 1 by omega] at hres
      have hsw := swap_conclusion s _ hv zr zc zr (zc + 1) hzr hzc hzr (by omega)
        (by omega) h0 rfl
      exact ⟨_, zr, zc, zr, zc + 1, hres, rfl, h0, hzr, by omega, by omega,
        Or.inr (Or.inr (Or.inr ⟨rfl, rfl, rfl⟩)), hsw.1, hsw.2.1, hsw.2.2.1,
        hsw.2.2.2.1, hsw.2.2.2.2⟩

theorem list_eq_nine {α : Type} (l : List α) (h : l.length = 9) :
    ∃ a b c d e f p q r, l = [a, b, c, d, e, f, p, q, r] := by
  rcases l with _ | ⟨a, l⟩
  · simp at h
  rcases l with _ | ⟨b, l⟩
  · simp at h
  rcases l with _ | ⟨c, l⟩
  · simp at h
  rcases l with _ | ⟨d, l⟩
  · simp at h
  rcases l with _ | ⟨e, l⟩
  · simp at h
  rcases l with _ | ⟨f, l⟩
  · simp at h
  rcases l with _ | ⟨p, l⟩
  · simp at h
  rcases l with _ | ⟨q, l⟩
  · simp at h
  rcases l with _ | ⟨r, l⟩
  · simp at h
  rcases l with _ | ⟨s, l⟩
  · exact ⟨a, b, c, d, e, f, p, q, r, rfl⟩
  · simp at h

open EightPuzzleProblem in
/-- C1: any state produced by estado_aleatorio (for any stream of shuffled
permutations of 0..8) is a 3x3 grid holding each of 0..8 exactly once (so
exactly one zero cell), whose row-major flattening with the blank removed has
an even number of inversions. -/
theorem estado_aleatorio_solvable (cands : List (List Int)) (g : List (List Int))
    (hc : ∀ p ∈ cands, p.Perm range9)
    (hg : estado_aleatorio cands = some g) :
    validGrid g ∧ g.flatten.count 0 = 1 ∧ contar_inversiones g.flatten % 2 = 0 := by
  induction cands with
  | nil => simp [estado_aleatorio] at hg
  | cons p rest ih =>
    rw [estado_aleatorio] at hg
    by_cases hr : es_resoluble p
    · rw [if_pos hr] at hg
      obtain rfl := Option.some.inj hg
      have hperm : p.Perm range9 := hc p (List.mem_cons_self p rest)
      have hlen : p.length = 9 := by rw [hperm.length_eq]; rfl
      obtain ⟨a, b, c, d, e, f, q, r, s, rfl⟩ := list_eq_nine p hlen
      have hfl : [[a, b, c, d, e, f, q, r, s].take 3,
          ([a, b, c, d, e, f, q, r, s].drop 3).take 3,
          ([a, b, c, d, e, f, q, r, s].drop 6).take 3].flatten =
          [a, b, c, d, e, f, q, r, s] := rfl
      refine ⟨⟨rfl, ?_, ?_⟩, ?_, ?_⟩
      · intro row hrow
        simp only [List.mem_cons, List.not_mem_nil, or_false] at hrow
        rcases hrow with rfl | rfl | rfl <;> rfl
      · rw [hfl]; exact hperm
      · rw [hfl, hperm.count_eq 0]; rfl
      · rw [hfl]
        have : (contar_inversiones [a, b, c, d, e, f, q, r, s] % 2 == 0) = true := hr
        simpa using this
    · rw [if_neg hr] at hg
      exact ih (fun x hx => hc x (List.mem_cons_of_mem p hx)) hg

/-- C1 witness: the identity permutation stream yields the goal grid. -/
theorem estado_aleatorio_solvable_witness :
    validGrid [[0, 1, 2], [3, 4, 5], [6, 7, 8]] ∧
    ([[0, 1, 2], [3, 4, 5], [6, 7, 8]] : List (List Int)).flatten.count 0 = 1 ∧
    EightPuzzleProblem.contar_inversiones
      ([[0, 1, 2], [3, 4, 5], [6, 7, 8]] : List (List Int)).flatten % 2 = 0 :=
  estado_aleatorio_solvable [[0, 1, 2, 3, 4, 5, 6, 7, 8]]
    [[0, 1, 2], [3, 4, 5], [6, 7, 8]] (by decide) (by decide)

open EightPuzzleProblem in
/-- C7: for every valid puzzle state, acciones finds the blank and returns
exactly the legal subset of UP, DOWN, LEFT, RIGHT (UP iff blank row > 0, DOWN
iff blank row < 2, LEFT iff blank column > 0, RIGHT iff blank column < 2),
listed in that fixed order (a sublist of the four-element master list).
acciones is a pure function, so the state is not mutated. -/
theorem puzzle_acciones_spec (g : List (List Int)) (hv : validGrid g) :
    ∃ zr zc acts, buscar_cero g = some (zr, zc) ∧ getCell g zr zc = 0 ∧
      zr < 3 ∧ zc < 3 ∧ acciones g = some acts ∧
      acts.Sublist ["UP", "DOWN", "LEFT", "RIGHT"] ∧
      ("UP" ∈ acts ↔ 0 < zr) ∧ ("DOWN" ∈ acts ↔ zr < 2) ∧
      ("LEFT" ∈ acts ↔ 0 < zc) ∧ ("RIGHT" ∈ acts ↔ zc < 2) := by
  obtain ⟨⟨zr, zc⟩, hz⟩ := exists_buscar_cero g hv
  obtain ⟨h0, hzr, hzc⟩ := buscar_cero_some g zr zc hz
  have hacts := acciones_eq g zr zc hz
  refine ⟨zr, zc, _, hz, h0, hzr, hzc, hacts,
    acciones_sublist g zr zc hz _ hacts, ?_, ?_, ?_, ?_⟩
  · rw [mem_acciones g zr zc hz _ hacts "UP"]; simp
  · rw [mem_acciones g zr zc hz _ hacts "DOWN"]; simp
  · rw [mem_acciones g zr zc hz _ hacts "LEFT"]; simp
  · rw [mem_acciones g zr zc hz _ hacts "RIGHT"]; simp

/-- C7 witness: the goal grid has the blank at (0, 0), so only DOWN and RIGHT
are legal. -/
theorem puzzle_acciones_spec_witness :
    ∃ zr zc acts,
      EightPuzzleProblem.buscar_cero [[0, 1, 2], [3, 4, 5], [6, 7, 8]] = some (zr, zc) ∧
      getCell [[0, 1, 2], [3, 4, 5], [6, 7, 8]] zr zc = 0 ∧
      zr < 3 ∧ zc < 3 ∧
      EightPuzzleProblem.acciones [[0, 1, 2], [3, 4, 5], [6, 7, 8]] = some acts ∧
      acts.Sublist ["UP", "DOWN", "LEFT", "RIGHT"] ∧
      ("UP" ∈ acts ↔ 0 < zr) ∧ ("DOWN" ∈ acts ↔ zr < 2) ∧
      ("LEFT" ∈ acts ↔ 0 < zc) ∧ ("RIGHT" ∈ acts ↔ zc < 2) :=
  puzzle_acciones_spec [[0, 1, 2], [3, 4, 5], [6, 7, 8]] (by decide)

open EightPuzzleProblem in
/-- C8: for every valid puzzle state, resultado fails with the invalid-action
error when the action is none of UP, DOWN, LEFT, RIGHT, and fails with the
out-of-bounds error when the blank's computed target cell lies outside the 3x3
grid; in particular, with the blank at (0, 0), UP fails out of bounds.
resultado is pure, so the input state is unchanged in every failing case. -/
theorem puzzle_resultado_error_spec (g : List (List Int)) (a : String)
    (hv : validGrid g) :
    ∃ zr zc, buscar_cero g = some (zr, zc) ∧
      (a ∉ ["UP", "DOWN", "LEFT", "RIGHT"] →
        resultado g a = Except.error PuzzleError.invalidAction) ∧
      (∀ nr nc : Int,
        ((a = "UP" ∧ nr = (zr : Int) - 1 ∧ nc = (zc : Int)) ∨
         (a = "DOWN" ∧ nr = (zr : Int) + 1 ∧ nc = (zc : Int)) ∨
         (a = "LEFT" ∧ nr = (zr : Int) ∧ nc = (zc : Int) - 1) ∨
         (a = "RIGHT" ∧ nr = (zr : Int) ∧ nc = (zc : Int) + 1)) →
        ¬(0 ≤ nr ∧ nr < 3 ∧ 0 ≤ nc ∧ nc < 3) →
        resultado g a = Except.error PuzzleError.outOfBounds) ∧
      (zr = 0 → zc = 0 → a = "UP" →
        resultado g a = Except.error PuzzleError.outOfBounds) := by
  obtain ⟨⟨zr, zc⟩, hz⟩ := exists_buscar_cero g hv
  have hinv : a ∉ ["UP", "DOWN", "LEFT", "RIGHT"] →
      resultado g a = Except.error PuzzleError.invalidAction := by
    intro hnot
    simp only [List.mem_cons, List.not_mem_nil, or_false, not_or] at hnot
    obtain ⟨h1, h2, h3, h4⟩ := hnot
    unfold resultado
    rw [hz]
    dsimp only
    rw [if_neg h1, if_neg h2, if_neg h3, if_neg h4]
  have hoob : ∀ nr nc : Int,
      ((a = "UP" ∧ nr = (zr : Int) - 1 ∧ nc = (zc : Int)) ∨
       (a = "DOWN" ∧ nr = (zr : Int) + 1 ∧ nc = (zc : Int)) ∨
       (a = "LEFT" ∧ nr = (zr : Int) ∧ nc = (zc : Int) - 1) ∨
       (a = "RIGHT" ∧ nr = (zr : Int) ∧ nc = (zc : Int) + 1)) →
      ¬(0 ≤ nr ∧ nr < 3 ∧ 0 ≤ nc ∧ nc < 3) →
      resultado g a = Except.error PuzzleError.outOfBounds := by
    intro nr nc hdir hnb
    unfold resultado
    rw [hz]
    dsimp only
    rcases hdir with ⟨rfl, rfl, rfl⟩ | ⟨rfl, rfl, rfl⟩ | ⟨rfl, rfl, rfl⟩ | ⟨rfl, rfl, rfl⟩
    · rw [if_pos rfl]
      dsimp only
      rw [if_neg hnb]
    · rw [if_neg (by decide), if_pos rfl]
      dsimp only
      rw [if_neg hnb]
    · rw [if_neg (by decide), if_neg (by decide), if_pos rfl]
      dsimp only
      rw [if_neg hnb]
    · rw [if_neg (by decide), if_neg (by decide), if_neg (by decide), if_pos rfl]
      dsimp only
      rw [if_neg hnb]
  refine ⟨zr, zc, hz, hinv, hoob, ?_⟩
  intro hr0 hc0 hup
  subst hr0; subst hc0
  exact hoob (-1) 0 (Or.inl ⟨hup, by norm_num, by norm_num⟩) (by norm_num)

/-- C8 witness: on the goal grid (blank at (0, 0)), the unrecognized action
JUMP fails invalid-action and UP fails out of bounds. -/
theorem puzzle_resultado_error_spec_witness :
    (EightPuzzleProblem.resultado [[0, 1, 2], [3, 4, 5], [6, 7, 8]] "JUMP" =
      Except.error EightPuzzleProblem.PuzzleError.invalidAction) ∧
    (EightPuzzleProblem.resultado [[0, 1, 2], [3, 4, 5], [6, 7, 8]] "UP" =
      Except.error EightPuzzleProblem.PuzzleError.outOfBounds) := by
  constructor
  · obtain ⟨zr, zc, hz, hinv, hoob, hcorner⟩ :=
      puzzle_resultado_error_spec [[0, 1, 2], [3, 4, 5], [6, 7, 8]] "JUMP" (by decide)
    exact hinv (by decide)
  · obtain ⟨zr, zc, hz, hinv, hoob, hcorner⟩ :=
      puzzle_resultado_error_spec [[0, 1, 2], [3, 4, 5], [6, 7, 8]] "UP" (by decide)
    have hz00 : EightPuzzleProblem.buscar_cero [[0, 1, 2], [3, 4, 5], [6, 7, 8]] = some (0, 0) := by decide
    rw [hz00] at hz
    obtain ⟨rfl, rfl⟩ : 0 = zr ∧ 0 = zc := by
      have := Option.some.inj hz
      exact ⟨congrArg Prod.fst this, congrArg Prod.snd this⟩
    exact hcorner rfl rfl rfl

/-- C2 witness: applying DOWN to the goal grid. -/
theorem puzzle_resultado_swaps_blank_witness :
    ∃ t zr zc nr nc,
      EightPuzzleProblem.resultado [[0, 1, 2], [3, 4, 5], [6, 7, 8]] "DOWN" =
        Except.ok t ∧
      EightPuzzleProblem.buscar_cero [[0, 1, 2], [3, 4, 5], [6, 7, 8]] =
        some (zr, zc) ∧
      getCell [[0, 1, 2], [3, 4, 5], [6, 7, 8]] zr zc = 0 ∧
      nr < 3 ∧ nc < 3 ∧ ¬(nr = zr ∧ nc = zc) ∧
      ((("DOWN" : String) = "UP" ∧ nr + 1 = zr ∧ nc = zc) ∨
       (("DOWN" : String) = "DOWN" ∧ nr = zr + 1 ∧ nc = zc) ∨
       (("DOWN" : String) = "LEFT" ∧ nr = zr ∧ nc + 1 = zc) ∨
       (("DOWN" : String) = "RIGHT" ∧ nr = zr ∧ nc = zc + 1)) ∧
      getCell [[0, 1, 2], [3, 4, 5], [6, 7, 8]] nr nc ≠ 0 ∧
      getCell t zr zc = getCell [[0, 1, 2], [3, 4, 5], [6, 7, 8]] nr nc ∧
      getCell t nr nc = 0 ∧
      (∀ r c, r < 3 → c < 3 → ¬(r = zr ∧ c = zc) → ¬(r = nr ∧ c = nc) →
        getCell t r c = getCell [[0, 1, 2], [3, 4, 5], [6, 7, 8]] r c) ∧
      validGrid t :=
  puzzle_resultado_swaps_blank [[0, 1, 2], [3, 4, 5], [6, 7, 8]] "DOWN"
    ["DOWN", "RIGHT"] (by decide) (by rfl) (by decide)

/-! Queens lemmas and claims. -/

namespace EightQueensProblem

theorem mem_acciones_queens (estado : List Int) (r c : Int) :
    (r, c) ∈ acciones estado ↔
      1 ≤ r ∧ r ≤ 8 ∧ 1 ≤ c ∧ c ≤ 8 ∧ estado.getD ((c - 1).toNat) 0 ≠ r := by
  unfold acciones N
  simp only [List.mem_flatMap, List.mem_map, List.mem_filter, List.mem_range',
    decide_eq_true_eq, Prod.mk.injEq]
  constructor
  · rintro ⟨col, ⟨i, hi, rfl⟩, row, ⟨⟨⟨j, hj, rfl⟩, hne⟩, hr, hc⟩⟩
    subst hr; subst hc
    refine ⟨by omega, by omega, by omega, by omega, ?_⟩
    rw [show ((((1 + 1 * i : Nat) : Int) - 1).toNat) = 1 + 1 * i - 1 by omega]
    exact hne
  · rintro ⟨h1, h2, h3, h4, hne⟩
    refine ⟨c.toNat, ⟨c.toNat - 1, by omega, by omega⟩, r.toNat,
      ⟨⟨⟨r.toNat - 1, by omega, by omega⟩, ?_⟩, by omega, by omega⟩⟩
    rw [show (c.toNat - 1) = (c - 1).toNat by omega,
      show ((r.toNat : Int)) = r by omega]
    exact hne

theorem filter_length_seven (a : Int) (h1 : 1 ≤ a) (h2 : a ≤ 8) :
    ((List.range' 1 8).filter (fun row : Nat => decide (a ≠ (row : Int)))).length = 7 := by
  interval_cases a <;> rfl

theorem acciones_length (estado : List Int) (hlen : estado.length = 8)
    (hv : ∀ v ∈ estado, 1 ≤ v ∧ v ≤ 8) : (acciones estado).length = 56 := by
  have h : ∀ i : Nat, i < 8 →
      (([1, 2, 3, 4, 5, 6, 7, 8] : List Nat).filter
        (fun row : Nat => decide (estado.getD i 0 ≠ (row : Int)))).length = 7 := by
    intro i hi
    obtain ⟨ha1, ha2⟩ := hv (estado.getD i 0) (getD_mem estado i 0 (by omega))
    rw [show ([1, 2, 3, 4, 5, 6, 7, 8] : List Nat) = List.range' 1 8 from rfl]
    exact filter_length_seven (estado.getD i 0) ha1 ha2
  unfold acciones N
  rw [show List.range' 1 8 = [1, 2, 3, 4, 5, 6, 7, 8] from rfl]
  rw [List.flatMap_cons, List.flatMap_cons, List.flatMap_cons, List.flatMap_cons,
    List.flatMap_cons, List.flatMap_cons, List.flatMap_cons, List.flatMap_cons,
    List.flatMap_nil, List.append_nil]
  simp only [List.length_append, List.length_map]
  rw [show ((1 : Nat) - 1) = 0 from rfl, show ((2 : Nat) - 1) = 1 from rfl,
    show ((3 : Nat) - 1) = 2 from rfl, show ((4 : Nat) - 1) = 3 from rfl,
    show ((5 : Nat) - 1) = 4 from rfl, show ((6 : Nat) - 1) = 5 from rfl,
    show ((7 : Nat) - 1) = 6 from rfl, show ((8 : Nat) - 1) = 7 from rfl]
  rw [h 0 (by omega), h 1 (by omega), h 2 (by omega), h 3 (by omega),
    h 4 (by omega), h 5 (by omega), h 6 (by omega), h 7 (by omega)]

end EightQueensProblem

open EightQueensProblem in
/-- C6: for every length-8 queens state with rows in 1..8, acciones returns
exactly 56 pairs, namely for each column 1..8 the 7 pairs (row, column) whose
row lies in 1..8 and differs from the queen currently in that column. -/
theorem queens_acciones_spec (estado : List Int) (hlen : estado.length = 8)
    (hv : ∀ v ∈ estado, 1 ≤ v ∧ v ≤ 8) :
    (acciones estado).length = 56 ∧
    ∀ r c : Int, ((r, c) ∈ acciones estado ↔
      1 ≤ r ∧ r ≤ 8 ∧ 1 ≤ c ∧ c ≤ 8 ∧ estado.getD ((c - 1).toNat) 0 ≠ r) :=
  ⟨acciones_length estado hlen hv, fun r c => mem_acciones_queens estado r c⟩

/-- C6 witness: the staircase state 1..8. -/
theorem queens_acciones_spec_witness :
    (EightQueensProblem.acciones [1, 2, 3, 4, 5, 6, 7, 8]).length = 56 ∧
    ∀ r c : Int, ((r, c) ∈ EightQueensProblem.acciones [1, 2, 3, 4, 5, 6, 7, 8] ↔
      1 ≤ r ∧ r ≤ 8 ∧ 1 ≤ c ∧ c ≤ 8 ∧
      ([1, 2, 3, 4, 5, 6, 7, 8] : List Int).getD ((c - 1).toNat) 0 ≠ r) :=
  queens_acciones_spec [1, 2, 3, 4, 5, 6, 7, 8] (by decide) (by decide)

open EightQueensProblem in
/-- C9: constructing the queens problem with an explicit initial list fails
with the length error exactly when the list does not have 8 elements, and
otherwise succeeds storing (a copy of) the given list.  In the model a copy is
the value itself. -/
theorem queens_init_spec (initial : List Int) :
    (initial.length ≠ 8 → init initial = Except.error QueensError.lengthError) ∧
    (initial.length = 8 → init initial = Except.ok initial) := by
  constructor
  · intro h
    unfold init N
    rw [if_pos h]
  · intro h
    unfold init N
    rw [if_neg (by omega)]

/-- C9 witness: a 7-element list is rejected, an 8-element list is stored. -/
theorem queens_init_spec_witness :
    EightQueensProblem.init [1, 1, 1, 1, 1, 1, 1] =
      Except.error EightQueensProblem.QueensError.lengthError ∧
    EightQueensProblem.init [1, 2, 3, 4, 5, 6, 7, 8] =
      Except.ok [1, 2, 3, 4, 5, 6, 7, 8] :=
  ⟨(queens_init_spec [1, 1, 1, 1, 1, 1, 1]).1 (by decide),
   (queens_init_spec [1, 2, 3, 4, 5, 6, 7, 8]).2 (by decide)⟩

open EightQueensProblem in
/-- C10 (implicit): resultado never checks membership of the action in
acciones: for an in-range action (row, col) whose row equals the current row
of column col — which acciones does not list — it raises no error and returns
a state equal to the input. -/
theorem queens_resultado_noop (estado : List Int) (row col : Int)
    (h1 : 1 ≤ row) (h2 : row ≤ 8) (h3 : 1 ≤ col) (h4 : col ≤ 8)
    (hlen : estado.length = 8)
    (hcur : estado.getD ((col - 1).toNat) 0 = row) :
    (row, col) ∉ acciones estado ∧
    resultado estado (row, col) = Except.ok estado := by
  constructor
  · rw [mem_acciones_queens estado row col]
    intro h
    exact h.2.2.2.2 hcur
  · unfold resultado N
    rw [if_neg (by omega), if_neg (by omega)]
    dsimp only
    rw [← hcur]
    exact congrArg Except.ok (set_getD_self estado ((col - 1).toNat) 0 (by omega))

/-- C10 witness: moving the queen of column 3 to its current row 3 in the
staircase state. -/
theorem queens_resultado_noop_witness :
    ((3 : Int), (3 : Int)) ∉ EightQueensProblem.acciones [1, 2, 3, 4, 5, 6, 7, 8] ∧
    EightQueensProblem.resultado [1, 2, 3, 4, 5, 6, 7, 8] (3, 3) =
      Except.ok [1, 2, 3, 4, 5, 6, 7, 8] :=
  queens_resultado_noop [1, 2, 3, 4, 5, 6, 7, 8] 3 3 (by decide) (by decide)
    (by decide) (by decide) (by decide) (by decide)

/-- C5 counterexample: valor_objetivo on [1,3,5,7,2,4,6,8] is not 0 (the
queens of columns 1 and 8 sit on rows 1 and 8: same diagonal). -/
theorem queens_staircase_not_solution :
    ¬ (EightQueensProblem.valor_objetivo [1, 3, 5, 7, 2, 4, 6, 8] = 0) := by
  decide

/-- C5 amended: valor_objetivo on [1,3,5,7,2,4,6,8] is 1, and a genuine
solution such as [1,5,8,6,3,7,2,4] evaluates to 0. -/
theorem queens_valor_objetivo_examples :
    EightQueensProblem.valor_objetivo [1, 3, 5, 7, 2, 4, 6, 8] = 1 ∧
    EightQueensProblem.valor_objetivo [1, 5, 8, 6, 3, 7, 2, 4] = 0 := by
  decide

theorem foldl_conf_inner (estado : List Int) (i : Nat) (m : List Nat) (n : Nat) :
    m.foldl (fun conf j =>
      if estado.getD (i - 1) 0 = estado.getD (j - 1) 0 then conf + 1
      else if (estado.getD (i - 1) 0 - estado.getD (j - 1) 0).natAbs =
          ((i : Int) - (j : Int)).natAbs then conf + 1
      else conf) n
    = n + m.countP (fun j => decide (attacks estado (i, j))) := by
  induction m generalizing n with
  | nil => simp
  | cons j tl ih =>
    rw [List.foldl_cons, ih, List.countP_cons]
    by_cases hc1 : estado.getD (i - 1) 0 = estado.getD (j - 1) 0
    · rw [if_pos hc1]
      rw [show (decide (attacks estado (i, j))) = true from decide_eq_true (Or.inl hc1)]
      rw [if_pos rfl]
      omega
    · by_cases hc2 : (estado.getD (i - 1) 0 - estado.getD (j - 1) 0).natAbs =
          ((i : Int) - (j : Int)).natAbs
      · rw [if_neg hc1, if_pos hc2]
        rw [show (decide (attacks estado (i, j))) = true from
          decide_eq_true (Or.inr hc2)]
        rw [if_pos rfl]
        omega
      · rw [if_neg hc1, if_neg hc2]
        rw [show (decide (attacks estado (i, j))) = false from
          decide_eq_false (fun hor => hor.elim hc1 hc2)]
        rw [if_neg (by simp)]
        omega

theorem foldl_conf_outer (estado : List Int) (l : List Nat) (n : Nat) :
    l.foldl (fun conflictos i =>
      (List.range' (i + 1) (8 - i)).foldl (fun conf j =>
        if estado.getD (i - 1) 0 = estado.getD (j - 1) 0 then conf + 1
        else if (estado.getD (i - 1) 0 - estado.getD (j - 1) 0).natAbs =
            ((i : Int) - (j : Int)).natAbs then conf + 1
        else conf) conflictos) n
    = n + ((l.flatMap (fun i => (List.range' (i + 1) (8 - i)).map (fun j => (i, j)))).countP
        (fun p => decide (attacks estado p))) := by
  induction l generalizing n with
  | nil => simp
  | cons i tl ih =>
    rw [List.foldl_cons, foldl_conf_inner, ih, List.flatMap_cons, List.countP_append,
      List.countP_map]
    have heq : ((fun p => decide (attacks estado p)) ∘ (fun j => (i, j))) =
        (fun j => decide (attacks estado (i, j))) := rfl
    rw [heq]
    omega

open EightQueensProblem in
/-- C4: for every queens state, valor_objetivo counts exactly the unordered
column pairs (i, j) with i < j in 1..8 whose queens attack each other (same
row, or row distance equal to column distance); in particular the all-ones
state scores C(8,2) = 28. -/
theorem queens_valor_objetivo_pairs (estado : List Int) :
    (∀ p : Nat × Nat, p ∈ column_pairs ↔ 1 ≤ p.1 ∧ p.1 < p.2 ∧ p.2 ≤ 8) ∧
    valor_objetivo estado = column_pairs.countP (fun p => decide (attacks estado p)) ∧
    valor_objetivo [1, 1, 1, 1, 1, 1, 1, 1] = 28 := by
  refine ⟨?_, ?_, by decide⟩
  · intro p
    unfold column_pairs
    simp only [List.mem_flatMap, List.mem_map, List.mem_range']
    constructor
    · rintro ⟨i, ⟨a, ha, rfl⟩, j, ⟨b, hb, rfl⟩, rfl⟩
      dsimp only
      omega
    · rintro ⟨hp1, hp2, hp3⟩
      refine ⟨p.1, ⟨p.1 - 1, by omega, by omega⟩, p.2,
        ⟨p.2 - (p.1 + 1), by omega, by omega⟩, rfl⟩
  · unfold valor_objetivo N column_pairs
    rw [foldl_conf_outer]
    omega

namespace EightPuzzleProblem

theorem foldl_manh_inner (estado : List (List Int)) (r : Nat) (m : List Nat) (t0 : Int) :
    m.foldl (fun t c =>
      if getCell estado r c = 0 then t
      else t + |(r : Int) - ((pos_objetivo (getCell estado r c)).1 : Int)| +
        |(c : Int) - ((pos_objetivo (getCell estado r c)).2 : Int)|) t0
    = t0 + (m.map (fun c =>
        if getCell estado r c = 0 then 0
        else |(r : Int) - ((pos_objetivo (getCell estado r c)).1 : Int)| +
          |(c : Int) - ((pos_objetivo (getCell estado r c)).2 : Int)|)).sum := by
  induction m generalizing t0 with
  | nil => simp
  | cons c tl ih =>
    rw [List.foldl_cons, ih, List.map_cons, List.sum_cons]
    by_cases h : getCell estado r c = 0
    · rw [if_pos h, if_pos h]
      ring
    · rw [if_neg h, if_neg h]
      ring

theorem foldl_manh_outer (estado : List (List Int)) (l : List Nat) (t0 : Int) :
    l.foldl (fun total r =>
      (List.range 3).foldl (fun t c =>
        if getCell estado r c = 0 then t
        else t + |(r : Int) - ((pos_objetivo (getCell estado r c)).1 : Int)| +
          |(c : Int) - ((pos_objetivo (getCell estado r c)).2 : Int)|) total) t0
    = t0 + (l.map (fun r => ((List.range 3).map (fun c =>
        if getCell estado r c = 0 then 0
        else |(r : Int) - ((pos_objetivo (getCell estado r c)).1 : Int)| +
          |(c : Int) - ((pos_objetivo (getCell estado r c)).2 : Int)|)).sum)).sum := by
  induction l generalizing t0 with
  | nil => simp
  | cons r tl ih =>
    rw [List.foldl_cons, foldl_manh_inner, ih, List.map_cons, List.sum_cons]
    ring

end EightPuzzleProblem

open EightPuzzleProblem in
/-- C3: for every puzzle state, valor_objetivo equals the sum over the nine
cells of the Manhattan distance of each non-zero value to its goal position
(pos_objetivo, certified below to be the value's position in the GOAL grid);
it is 0 on the goal grid and nonnegative on every state. -/
theorem puzzle_valor_objetivo_manhattan (s : List (List Int)) :
    valor_objetivo s = (∑ r ∈ Finset.range 3, ∑ c ∈ Finset.range 3,
      (if getCell s r c = 0 then 0
       else |(r : Int) - ((pos_objetivo (getCell s r c)).1 : Int)| +
         |(c : Int) - ((pos_objetivo (getCell s r c)).2 : Int)|)) ∧
    (∀ v : Int, 0 ≤ v → v ≤ 8 →
      getCell GOAL (pos_objetivo v).1 (pos_objetivo v).2 = v ∧
      (pos_objetivo v).1 < 3 ∧ (pos_objetivo v).2 < 3) ∧
    valor_objetivo GOAL = 0 ∧ 0 ≤ valor_objetivo s := by
  have hsum : valor_objetivo s = ∑ r ∈ Finset.range 3, ∑ c ∈ Finset.range 3,
      (if getCell s r c = 0 then 0
       else |(r : Int) - ((pos_objetivo (getCell s r c)).1 : Int)| +
         |(c : Int) - ((pos_objetivo (getCell s r c)).2 : Int)|) := by
    unfold valor_objetivo
    rw [foldl_manh_outer]
    rw [show List.range 3 = [0, 1, 2] from rfl]
    simp only [List.map_cons, List.map_nil, List.sum_cons, List.sum_nil,
      Finset.sum_range_succ, Finset.sum_range_zero]
    ring
  refine ⟨hsum, ?_, by decide, ?_⟩
  · intro v h0 h8
    interval_cases v <;> exact ⟨by decide, by decide, by decide⟩
  · rw [hsum]
    refine Finset.sum_nonneg fun r hr => Finset.sum_nonneg fun c hc => ?_
    split_ifs with h
    · exact le_refl 0
    · exact add_nonneg (abs_nonneg _) (abs_nonneg _)
